import Mathlib

/-!
Shallow embedding of the authority-connector layer of tei-publisher-components:
the aggregating connector (src/authority/custom.js, class Custom), the
reconciliation-service connector (class ReconciliationService) and the pieces
of the es-semver library it calls for version negotiation.  Transport calls
(fetch) are modelled as explicit function parameters or pre-fetched values;
promise rejections and thrown JS exceptions are modelled with Except.
-/

namespace Authority

/-- Entity type entry as produced by a reconciliation service: an object
carrying a name field. -/
structure TypeEntry where
  name : String
deriving Repr, DecidableEq

/-- Value of the type field of a normalized result record.  The newest
protocol variant stores only the first type entry's name (a string), the
legacy variant stores the whole type list, and records built by the local
register or the aggregating connector leave the field undefined. -/
inductive TypeVal
  | name (s : String)
  | list (ts : List TypeEntry)
  | undef
deriving Repr, DecidableEq

/-- Normalized result record emitted by every connector (the ResultRecord
shape).  score is only set by the newest-variant parser; local records leave
type and score undefined. -/
structure Record where
  register : String
  id : String
  label : String
  type : TypeVal
  details : String
  score : Option Int
  link : String
  provider : String
deriving Repr, DecidableEq

/-- Result of one connector query: the reported count and the record list
(custom.js and reconciliation resolve objects of shape
totalItems/items). -/
structure QueryResult where
  totalItems : Nat
  items : List Record
deriving Repr, DecidableEq

/-- One entry of the JSON array returned by the local register search
endpoint in Custom.query (fields read at custom.js lines 34-44). -/
structure LocalItem where
  id : String
  label : String
  link : String
  details : String
deriving Repr, DecidableEq

/-- Record pushed for a local register search hit in Custom.query
(custom.js lines 35-42): type and score fields are never set. -/
def localRecord (reg : String) (item : LocalItem) : Record :=
  { register := reg
    id := item.id
    label := item.label
    type := TypeVal.undef
    details := item.details
    score := none
    link := item.link
    provider := "local" }

/-- Child fan-out loop of Custom.query (custom.js lines 47-52): each child
connector's query is awaited in configured order; its items are appended
after filtering out ids already present in the local id set (the set is
never extended with child ids), and its reported totalItems is added to the
running count.  The await has no catch: a child rejection is modelled as
Except.error, which aborts the loop (in the JS code the rejection escapes
the async callback and the surrounding promise never resolves). -/
def customQueryLoop (localIds : List String) (acc : List Record) (total : Nat) :
    List (Except Unit QueryResult) → Except Unit QueryResult
  | [] => Except.ok { totalItems := total, items := acc }
  | Except.error e :: _ => Except.error e
  | Except.ok dr :: rest =>
      customQueryLoop localIds
        (acc ++ dr.items.filter (fun r => !(localIds.contains r.id)))
        (total + dr.totalItems) rest

/-- Custom.query (custom.js lines 25-59): fetch local register results,
build the local record list and local id set, then fan out to the child
connectors.  The local search response is the pre-fetched json array; each
child connector's settled query outcome is given in configured order. -/
def customQuery (reg : String) (localJson : List LocalItem)
    (children : List (Except Unit QueryResult)) : Except Unit QueryResult :=
  customQueryLoop (localJson.map LocalItem.id)
    (localJson.map (localRecord reg)) localJson.length children

theorem customQueryLoop_map_ok (localIds : List String)
    (children : List QueryResult) :
    ∀ (acc : List Record) (total : Nat),
      customQueryLoop localIds acc total (children.map Except.ok) =
        Except.ok
          { totalItems := total + (children.map QueryResult.totalItems).sum
            items := acc ++ (children.map
              (fun dr => dr.items.filter
                (fun r => !(localIds.contains r.id)))).flatten } := by
  induction children with
  | nil => intro acc total; simp [customQueryLoop]
  | cons dr rest ih =>
      intro acc total
      simp only [List.map_cons, customQueryLoop, ih, List.flatten_cons,
        List.sum_cons, List.append_assoc, Nat.add_assoc]

/-- C1: AggregatingConnector.query merges the local records (in order) with,
for each child in configured order, exactly those child items whose id is
not among the local ids (children are not deduplicated against each other),
and its totalItems is the local count plus the sum of every child's reported
totalItems, even when duplicates were filtered out of the items list. -/
theorem custom_query_merge (reg : String) (localJson : List LocalItem)
    (children : List QueryResult) :
    customQuery reg localJson (children.map Except.ok) =
      Except.ok
        { totalItems := localJson.length +
            (children.map QueryResult.totalItems).sum
          items := localJson.map (localRecord reg) ++ (children.map
            (fun dr => dr.items.filter
              (fun r => !((localJson.map LocalItem.id).contains r.id)))).flatten } := by
  exact customQueryLoop_map_ok (localJson.map LocalItem.id) children
    (localJson.map (localRecord reg)) localJson.length

/-- C2 counterexample: with no local results and a single child whose query
rejects, Custom.query does not settle successfully with the remaining
results; the rejection escapes the merge loop (in the JS code the
surrounding promise never resolves). -/
theorem custom_query_child_rejection_cex :
    customQuery "places" [] [Except.error ()] = Except.error () := by
  rfl

/-- C2 amended: a child rejection during the Custom.query fan-out is not
caught: as soon as one child's query rejects, the whole merge aborts with
that rejection (children before it having succeeded), so the aggregated call
never settles successfully; only the info fan-out isolates child
failures. -/
theorem custom_query_child_rejection_propagates (reg : String)
    (localJson : List LocalItem) (pre rest : List (Except Unit QueryResult))
    (hpre : ∀ x ∈ pre, x ≠ Except.error ()) :
    customQuery reg localJson (pre ++ Except.error () :: rest) =
      Except.error () := by
  unfold customQuery
  generalize localJson.map LocalItem.id = localIds
  generalize localJson.map (localRecord reg) = acc
  generalize localJson.length = total
  induction pre generalizing acc total with
  | nil => rfl
  | cons x pre ih =>
      cases x with
      | error e =>
          cases e
          exact absurd rfl (hpre _ (List.mem_cons_self _ _))
      | ok dr =>
          simp only [List.cons_append, customQueryLoop]
          exact ih (fun y hy => hpre y (List.mem_cons_of_mem _ hy)) _ _

/-- Witness for C2 amended at a concrete input: one succeeding child followed
by a rejecting one aborts the aggregated query. -/
theorem custom_query_child_rejection_witness :
    customQuery "places" []
      [Except.ok { totalItems := 1, items := [] }, Except.error ()] =
      Except.error () := by
  have h := custom_query_child_rejection_propagates "places" []
    [Except.ok { totalItems := 1, items := [] }] []
    (by intro x hx; simp at hx; simp [hx])
  simpa using h

/-- Response of the local-register POST issued by Custom.select (custom.js
lines 141-155): the ok flag, the numeric status, and the decoded json body
(modelled as a string tag). -/
structure PostResp where
  ok : Bool
  status : Nat
  json : String
deriving Repr, DecidableEq

/-- Argument of Custom.select: only its id field is read. -/
structure SelItem where
  id : String
deriving Repr, DecidableEq

/-- Child loop of Custom.select (custom.js lines 117-130): each child
connector's getRecord is awaited in configured order with a catch mapping a
rejection to null; the loop breaks at the first truthy entry.  A child
outcome is Except.error for a rejection and Except.ok none for a resolution
with a falsy value (getRecord resolves undefined when its sub-query has no
items). -/
def selectFirst : List (Except Unit (Option Record)) → Option Record
  | [] => none
  | Except.ok (some e) :: _ => some e
  | Except.ok none :: rest => selectFirst rest
  | Except.error _ :: rest => selectFirst rest

/-- Custom.select (custom.js lines 116-156): find the first child record,
reject with a message naming the item id when none is found, otherwise POST
the record to the local register keyed by the item id and reject with the
stringified status on a non-ok response.  The POST transport is the
function from the item id and the posted record to the settled response. -/
def customSelect (item : SelItem) (children : List (Except Unit (Option Record)))
    (post : String → Record → PostResp) : Except String String :=
  match selectFirst children with
  | none => Except.error ("No record found for ID " ++ item.id)
  | some entry =>
      let resp := post item.id entry
      if resp.ok then Except.ok resp.json
      else Except.error (toString resp.status)

/-- C5: Custom.select tries the children in configured order treating a
rejection as try-next, stops at the first child yielding a record and POSTs
that record keyed by the item id (a non-ok response rejecting with the
status); when every child rejects, it rejects with an error message naming
the item id. -/
theorem custom_select_spec (item : SelItem)
    (post : String → Record → PostResp) :
    (∀ (pre : List (Except Unit (Option Record))) (e : Record)
        (rest : List (Except Unit (Option Record))),
      (∀ x ∈ pre, x = Except.error ()) →
      customSelect item (pre ++ Except.ok (some e) :: rest) post =
        (if (post item.id e).ok then Except.ok (post item.id e).json
         else Except.error (toString (post item.id e).status)))
    ∧ ∀ (children : List (Except Unit (Option Record))),
        (∀ x ∈ children, x = Except.error ()) →
        customSelect item children post =
          Except.error ("No record found for ID " ++ item.id) := by
  constructor
  · intro pre e rest hpre
    have hfirst : selectFirst (pre ++ Except.ok (some e) :: rest) = some e := by
      induction pre with
      | nil => rfl
      | cons x pre ih =>
          have hx := hpre x (List.mem_cons_self _ _)
          subst hx
          simpa [selectFirst] using
            ih (fun y hy => hpre y (List.mem_cons_of_mem _ hy))
    simp [customSelect, hfirst]
  · intro children hall
    have hnone : selectFirst children = none := by
      induction children with
      | nil => rfl
      | cons x children ih =>
          have hx := hall x (List.mem_cons_self _ _)
          subst hx
          simpa [selectFirst] using
            ih (fun y hy => hall y (List.mem_cons_of_mem _ hy))
    simp [customSelect, hnone]

/-- Record used by concrete witnesses. -/
def wRecord : Record :=
  { register := "places"
    id := "42"
    label := "L"
    type := TypeVal.undef
    details := ""
    score := none
    link := "l"
    provider := "Reconciliation" }

/-- POST transport answering ok with status 200 for the witnesses. -/
def wPostOk : String → Record → PostResp :=
  fun _ _ => { ok := true, status := 200, json := "saved" }

/-- POST transport answering non-ok with status 500 for the witnesses. -/
def wPostBad : String → Record → PostResp :=
  fun _ _ => { ok := false, status := 500, json := "" }

/-- Witness for C5 at concrete inputs: a rejecting child is skipped and the
next child's record is posted; with only rejecting children select rejects
naming the id; a non-ok POST rejects with the status string. -/
theorem custom_select_witness :
    customSelect { id := "42" }
        [Except.error (), Except.ok (some wRecord)] wPostOk =
      Except.ok "saved"
    ∧ customSelect { id := "42" } [Except.error ()] wPostBad =
      Except.error "No record found for ID 42"
    ∧ customSelect { id := "42" } [Except.ok (some wRecord)] wPostBad =
      Except.error "500" := by
  refine ⟨?_, ?_, ?_⟩
  · have h := (custom_select_spec { id := "42" } wPostOk).1
      [Except.error ()] wRecord []
      (by intro x hx; simpa using hx)
    simpa [wPostOk] using h
  · exact (custom_select_spec { id := "42" } wPostBad).2 [Except.error ()]
      (by intro x hx; simpa using hx)
  · have h := (custom_select_spec { id := "42" } wPostBad).1
      [] wRecord [] (by intro x hx; simp at hx)
    simpa [wPostBad] using h

/-- Behaviour of one child connector's info call as observed by
Custom.info: the text it writes into the shared container (none when it
leaves the container untouched) and its settled outcome, where Except.ok
none models a resolution with undefined (falsy) and Except.ok (some d) a
resolution with a truthy descriptor. -/
structure ChildInfoBehavior (α : Type) where
  writes : Option String
  outcome : Except Unit (Option α)

/-- Container contents after one child's info call ran against it. -/
def applyWrite {α : Type} (c : ChildInfoBehavior α) (container : String) :
    String :=
  match c.writes with
  | some w => w
  | none => container

/-- Child loop of the 404 branch of Custom.info (custom.js lines 86-104):
every child's info is awaited in order with the same container; a truthy
descriptor resolves the surrounding promise, but the loop has no break or
return, so later children still run and may overwrite the container, while
resolve on an already-settled promise keeps the first value (modelled with
the first-some accumulator). -/
def customInfo404Loop {α : Type} :
    List (ChildInfoBehavior α) → String → Option α → String × Option α
  | [], container, settled => (container, settled)
  | c :: rest, container, settled =>
      customInfo404Loop rest (applyWrite c container)
        (match c.outcome with
         | Except.ok (some d) => settled.orElse (fun _ => some d)
         | _ => settled)

/-- The 404 branch of Custom.info (custom.js lines 82-106): run the child
loop, then the trailing reject, which is a no-op when some child already
resolved the promise. -/
def customInfo404 {α : Type} (children : List (ChildInfoBehavior α))
    (container : String) : String × Except Unit α :=
  let r := customInfo404Loop children container none
  (r.1,
   match r.2 with
   | some d => Except.ok d
   | none => Except.error ())

theorem customInfo404Loop_settled {α : Type}
    (children : List (ChildInfoBehavior α)) (d : α) :
    ∀ container,
      customInfo404Loop children container (some d) =
        (children.foldl (fun s x => applyWrite x s) container, some d) := by
  induction children with
  | nil => intro container; rfl
  | cons c rest ih =>
      intro container
      simp only [customInfo404Loop, List.foldl_cons]
      cases h : c.outcome with
      | error e => simpa [h] using ih (applyWrite c container)
      | ok o =>
          cases o with
          | none => simpa [h] using ih (applyWrite c container)
          | some d2 => simpa [h, Option.orElse] using ih (applyWrite c container)

/-- C10: in Custom.info's 404 branch the child loop does not stop at the
first child resolving the promise: every remaining child's info still runs
against the same container (its final contents are the fold of all child
writes, so a later child may overwrite it), while the promise's resolved
value remains the first truthy descriptor produced. -/
theorem custom_info_404_continues {α : Type}
    (pre post : List (ChildInfoBehavior α)) (c : ChildInfoBehavior α)
    (d : α) (container : String)
    (hpre : ∀ x ∈ pre, ∀ y, x.outcome ≠ Except.ok (some y))
    (hc : c.outcome = Except.ok (some d)) :
    customInfo404 (pre ++ c :: post) container =
      ((pre ++ c :: post).foldl (fun s x => applyWrite x s) container,
       Except.ok d) := by
  have hloop : ∀ cont,
      customInfo404Loop (pre ++ c :: post) cont none =
        ((pre ++ c :: post).foldl (fun s x => applyWrite x s) cont, some d) := by
    induction pre with
    | nil =>
        intro cont
        simp only [List.nil_append, customInfo404Loop, List.foldl_cons, hc]
        simpa [Option.orElse] using
          customInfo404Loop_settled post d (applyWrite c cont)
    | cons x pre ih =>
        intro cont
        have hx := hpre x (List.mem_cons_self _ _)
        have hstep :
            (match x.outcome with
             | Except.ok (some d2) => (Option.none).orElse (fun _ => some d2)
             | _ => Option.none) = (none : Option α) := by
          cases hox : x.outcome with
          | error e => rfl
          | ok o =>
              cases o with
              | none => rfl
              | some d2 => exact absurd hox (hx d2)
        simp only [List.cons_append, customInfo404Loop, List.foldl_cons, hstep]
        exact ih (fun y hy => hpre y (List.mem_cons_of_mem _ hy)) (applyWrite x cont)
  simp [customInfo404, hloop container]

/-- Child behaviour for the C10 witness: rejects without writing. -/
def wChildErr : ChildInfoBehavior String :=
  { writes := none, outcome := Except.error () }

/-- Child behaviour for the C10 witness: writes and resolves a truthy
descriptor first. -/
def wChildHit : ChildInfoBehavior String :=
  { writes := some "first", outcome := Except.ok (some "D1") }

/-- Child behaviour for the C10 witness: a later child that also resolves a
truthy descriptor and overwrites the container. -/
def wChildLate : ChildInfoBehavior String :=
  { writes := some "second", outcome := Except.ok (some "D2") }

/-- Witness for C10 at a concrete input: the resolved value is the first
truthy descriptor D1, yet the container ends up holding the later child's
write. -/
theorem custom_info_404_witness :
    customInfo404 [wChildErr, wChildHit, wChildLate] "initial" =
      ("second", Except.ok "D1") := by
  have h := custom_info_404_continues [wChildErr] [wChildLate] wChildHit
    "D1" "initial"
    (by
      intro x hx y
      simp at hx
      subst hx
      simp [wChildErr])
    (by rfl)
  simpa [applyWrite, wChildErr, wChildHit, wChildLate] using h

/-- True when the string is a nonempty run of decimal digits. -/
def isNumeric (s : String) : Bool :=
  !s.isEmpty && s.all Char.isDigit

/-- Character allowed in a semver prerelease or build identifier. -/
def isIdentChar (c : Char) : Bool :=
  c.isAlphanum || c = '-'

/-- True when the string is a nonempty dot-separated list of nonempty
identifiers. -/
def identListOk (s : String) : Bool :=
  (s.splitOn ".").all (fun p => !p.isEmpty && p.all isIdentChar)

/-- Loose-mode preprocessing of a version string: trim whitespace and drop a
single leading v or = sign. -/
def looseTrim (v : String) : String :=
  let t := v.trim
  if t.startsWith "v" || t.startsWith "=" then t.drop 1 else t

/-- True when the string is a three-component dotted numeric version core. -/
def mainOk (m : String) : Bool :=
  match m.splitOn "." with
  | [a, b, c] => isNumeric a && isNumeric b && isNumeric c
  | _ => false

/-- True when the string is a valid version core with an optional prerelease
part after the first dash. -/
def coreOk (core : String) : Bool :=
  match core.splitOn "-" with
  | [] => false
  | [m] => mainOk m
  | m :: rest => mainOk m && identListOk (String.intercalate "-" rest)

/-- Modelled from the es-semver library: valid(v) under the loose and
includePrerelease options used by the connector.  The model accepts a
trimmed, optionally v- or =-prefixed three-component numeric version with
optional prerelease (after the first dash) and build (after a plus) parts;
the library's loose grammar is broader, but the connector only relies on
the parts kept here. -/
def svalid (v : String) : Bool :=
  let t := looseTrim v
  match t.splitOn "+" with
  | [core] => coreOk core
  | [core, build] => coreOk core && identListOk build
  | _ => false

/-- First dash-separated part of a version string (JS v.split('-')[0]). -/
def splitDashHead (v : String) : String :=
  (v.splitOn "-").headD v

/-- Second dash-separated part of a version string; when the string has no
dash, JS v.split('-')[1] is undefined and the template literal renders the
string undefined. -/
def splitDashSecond (v : String) : String :=
  match v.splitOn "-" with
  | _ :: b :: _ => b
  | _ => "undefined"

/-- Second normalization candidate built in the ReconciliationService
constructor (part_001 line 84): zero-pad a two-component version in front of
its prerelease tag. -/
def padCore (v : String) : String :=
  splitDashHead v ++ ".0-" ++ splitDashSecond v

/-- Version normalization applied to each advertised manifest version in the
ReconciliationService constructor (part_001 lines 82-86): an invalid version
is first retried with a .0 suffix, then with a .0 inserted before its
prerelease tag; otherwise it is kept as is. -/
def normalizeVersion (v : String) : String :=
  if !svalid v && svalid (v ++ ".0") then v ++ ".0"
  else if !svalid v && svalid (padCore v) then padCore v
  else v

/-- Parsed semantic version: numeric core and prerelease identifiers. -/
structure SemVer where
  major : Nat
  minor : Nat
  patch : Nat
  pre : List String
deriving Repr, DecidableEq

/-- Modelled from the es-semver library: parse a version string (loose,
prerelease kept, build metadata ignored). -/
def parseSemVer (v : String) : Option SemVer :=
  let t := looseTrim v
  let core := match t.splitOn "+" with
    | c :: _ => c
    | [] => t
  match core.splitOn "-" with
  | [] => none
  | m :: rest =>
      match m.splitOn "." with
      | [a, b, c] =>
          match a.toNat?, b.toNat?, c.toNat? with
          | some x, some y, some z =>
              some { major := x, minor := y, patch := z,
                     pre := if rest.isEmpty then []
                            else (String.intercalate "-" rest).splitOn "." }
          | _, _, _ => none
      | _ => none

/-- Semver prerelease identifier order: numeric identifiers compare
numerically and sort below alphanumeric ones, which compare lexically. -/
def preIdLt (a b : String) : Bool :=
  match a.toNat?, b.toNat? with
  | some x, some y => decide (x < y)
  | some _, none => true
  | none, some _ => false
  | none, none => decide (a < b)

/-- Semver prerelease list order: elementwise, a strict prefix sorting
lower. -/
def preListLt : List String → List String → Bool
  | [], [] => false
  | [], _ :: _ => true
  | _ :: _, [] => false
  | a :: as, b :: bs => if a = b then preListLt as bs else preIdLt a b

/-- Semver order: numeric core first, then a prerelease version below the
corresponding release, prerelease lists elementwise. -/
def semverLt (u v : SemVer) : Bool :=
  if u.major ≠ v.major then decide (u.major < v.major)
  else if u.minor ≠ v.minor then decide (u.minor < v.minor)
  else if u.patch ≠ v.patch then decide (u.patch < v.patch)
  else match u.pre, v.pre with
    | [], [] => false
    | _ :: _, [] => true
    | [], _ :: _ => false
    | _, _ => preListLt u.pre v.pre

/-- Upper bound of the range the client passes to maxSatisfying
(part_001 line 89). -/
def ceilingVersion : SemVer :=
  { major := 0, minor := 3, patch := 1, pre := [] }

/-- Modelled from the es-semver library: maxSatisfying over the fixed range
below 0.3.1 with the loose and includePrerelease options (part_001 line 89):
the largest parseable version strictly below 0.3.1, or null when there is
none. -/
def maxSatisfying (vs : List String) : Option String :=
  let cands := vs.filterMap (fun s => (parseSemVer s).map (fun sv => (s, sv)))
  let sats := cands.filter (fun p => semverLt p.2 ceilingVersion)
  (sats.foldl
    (fun best p =>
      match best with
      | none => some p
      | some b => if semverLt b.2 p.2 then some p else some b)
    none).map Prod.fst

/-- Version negotiation in the ReconciliationService constructor
(part_001 lines 81-89): when the manifest has no versions field (JS
undefined, falsy) the fixed default 0.1.0 is chosen; otherwise the field,
any array being truthy including the empty one, is normalized entrywise and
maxSatisfying picks the largest version below the client ceiling. -/
def negotiateVersion (versions : Option (List String)) : Option String :=
  match versions with
  | none => some "0.1.0"
  | some vs => maxSatisfying (vs.map normalizeVersion)

/-- C6: the version normalization of the ReconciliationService constructor
is idempotent on every version string, so in particular on every version the
connector accepts. -/
theorem normalize_version_idempotent (v : String) :
    normalizeVersion (normalizeVersion v) = normalizeVersion v := by
  have hfix : ∀ w, svalid w = true → normalizeVersion w = w := by
    intro w hw
    simp [normalizeVersion, hw]
  by_cases h1 : svalid v
  · have hv : normalizeVersion v = v := hfix v h1
    rw [hv, hv]
  · by_cases h2 : svalid (v ++ ".0")
    · have hv : normalizeVersion v = v ++ ".0" := by
        simp [normalizeVersion, h1, h2]
      rw [hv, hfix _ h2]
    · by_cases h3 : svalid (padCore v)
      · have hv : normalizeVersion v = padCore v := by
          simp [normalizeVersion, h1, h2, h3]
        rw [hv, hfix _ h3]
      · have hv : normalizeVersion v = v := by
          simp [normalizeVersion, h1, h2, h3]
        rw [hv, hv]

/-- C4 counterexample: negotiation over an explicit empty versions list does
not yield the legacy default 0.1.0; the empty array is truthy in JS, so the
code asks maxSatisfying, which returns null on an empty list. -/
theorem negotiate_empty_versions_cex :
    negotiateVersion (some []) = none ∧
      negotiateVersion (some []) ≠ some "0.1.0" := by
  have h0 : negotiateVersion (some []) = none := rfl
  refine ⟨h0, ?_⟩
  rw [h0]
  simp

/-- C4 amended: negotiation over a manifest with no versions field yields
the fixed legacy default 0.1.0, but over an explicit empty versions list it
yields null (no version), not the default. -/
theorem negotiate_default_versions :
    negotiateVersion none = some "0.1.0" ∧
      negotiateVersion (some []) = none :=
  ⟨rfl, rfl⟩

/-- JS truthiness of an optional string attribute: undefined and the empty
string are falsy. -/
def truthyOptStr : Option String → Bool
  | none => false
  | some s => !s.isEmpty

/-- Entry of the queries array of the newest-variant query body. -/
structure QueryEntry where
  query : String
  lang : Option String
deriving Repr, DecidableEq

/-- Query object built by queryObj (part_001 lines 24-39): the newest
variant wraps the key in a queries array, the default variant keys it under
q0. -/
inductive QObj
  | queries (qs : List QueryEntry)
  | q0 (query : String)
deriving Repr, DecidableEq

/-- JSON escaping of one character: backslash and double quote are
escaped; JSON.stringify additionally escapes control characters, which the
embedding leaves as is. -/
def jsonEscapeChar (c : Char) : List Char :=
  if c = '\\' then ['\\', '\\']
  else if c = '\"' then ['\\', '\"']
  else [c]

/-- JSON string escaping applied by JSON.stringify to string values. -/
def jsonEscape (s : String) : String :=
  String.mk (s.data.flatMap jsonEscapeChar)

/-- JSON.stringify of one queries entry, fields in insertion order. -/
def stringifyQueryEntry (q : QueryEntry) : String :=
  match q.lang with
  | none => "\x7b\"query\":\"" ++ jsonEscape q.query ++ "\"\x7d"
  | some l =>
      "\x7b\"query\":\"" ++ jsonEscape q.query ++ "\",\"lang\":\"" ++
        jsonEscape l ++ "\"\x7d"

/-- JSON.stringify of a query object. -/
def stringifyQObj : QObj → String
  | QObj.queries qs =>
      "\x7b\"queries\":[" ++
        String.intercalate "," (qs.map stringifyQueryEntry) ++ "]\x7d"
  | QObj.q0 k =>
      "\x7b\"q0\":\x7b\"query\":\"" ++ jsonEscape k ++ "\"\x7d\x7d"

/-- JS value held in the body field of the request descriptor: qRequestInit
always stores a string, but the dynamic language would also allow the query
object itself (the shape the lang assignment in query expects). -/
inductive Body
  | str (s : String)
  | obj (qs : List QueryEntry)
deriving Repr, DecidableEq

/-- Request descriptor built for the query transport call (the RequestInit
object): method, Accept and Content-Type headers, the optional
Accept-Language header added later, and the body. -/
structure ReqInit where
  method : String
  accept : String
  contentType : String
  acceptLanguage : Option String
  body : Body
deriving Repr, DecidableEq

/-- queryObj (part_001 lines 24-39). -/
def queryObj (version key : String) : QObj :=
  if version = "0.3.0-alpha" then QObj.queries [{ query := key, lang := none }]
  else QObj.q0 key

/-- qRequestInit (part_001 lines 48-69): the newest variant sends the
JSON-stringified queries object with Content-Type application/json; every
other version sends the form-encoded legacy body with Content-Type
application/x-www-form-urlencoded. -/
def qRequestInit (version key : String) : ReqInit :=
  if version = "0.3.0-alpha" then
    { method := "POST"
      accept := "application/json"
      contentType := "application/json"
      acceptLanguage := none
      body := Body.str (stringifyQObj (queryObj version key)) }
  else
    { method := "POST"
      accept := "application/json"
      contentType := "application/x-www-form-urlencoded"
      acceptLanguage := none
      body := Body.str ("queries=" ++ stringifyQObj (queryObj version key)) }

/-- JS semantics of the assignment body.queries[0].lang performed in
ReconciliationService.query (part_001 line 116): when body is a string its
queries property is undefined and indexing undefined throws a TypeError;
when body is an object the lang field of its first queries entry is set, an
empty queries array again throwing. -/
def bodySetLang (b : Body) (lang : String) : Except Unit Body :=
  match b with
  | Body.str _ => Except.error ()
  | Body.obj [] => Except.error ()
  | Body.obj (q :: rest) =>
      Except.ok (Body.obj ({ q with lang := some lang } :: rest))

/-- Request-building preamble of ReconciliationService.query (part_001
lines 111-117): build the version-specific request, set the Accept-Language
header from the acceptLang hint when the hint is truthy and the version is
the newest one, then attempt to set the lang field of the body's first
query entry when the processLang hint is truthy and the version is the
newest one; a thrown TypeError rejects the query. -/
def buildQueryRequest (version : String) (procLang accLang : Option String)
    (key : String) : Except Unit ReqInit :=
  let q0 := qRequestInit version key
  let q1 := if truthyOptStr accLang && version = "0.3.0-alpha"
    then { q0 with acceptLanguage := accLang } else q0
  if truthyOptStr procLang && version = "0.3.0-alpha" then
    match bodySetLang q1.body (procLang.getD "") with
    | Except.ok b => Except.ok { q1 with body := b }
    | Except.error e => Except.error e
  else Except.ok q1

/-- C7: at the newest negotiated version the request body is the
JSON-stringified queries document with Content-Type application/json, but
the process-language hint can never be honored: qRequestInit has already
stringified the body, so the assignment body.queries[0].lang at part_001
line 116 indexes an undefined property and throws a TypeError, rejecting
the query instead of adding the lang field the documentation promises. -/
theorem reconc_query_lang_bug :
    qRequestInit "0.3.0-alpha" "foo" =
      { method := "POST"
        accept := "application/json"
        contentType := "application/json"
        acceptLanguage := none
        body := Body.str "\x7b\"queries\":[\x7b\"query\":\"foo\"\x7d]\x7d" }
    ∧ buildQueryRequest "0.3.0-alpha" (some "en") none "foo" =
      Except.error () := by
  constructor
  · rfl
  · rfl

/-- Item of a reconciliation response's result list, with the fields
_parseResponse reads. -/
structure RItem where
  id : String
  name : String
  description : Option String
  type : Option (List TypeEntry)
  score : Option Int
deriving Repr, DecidableEq

/-- Preview or view template advertised by a manifest. -/
structure UrlTemplate where
  url : String
deriving Repr, DecidableEq

/-- Reconciliation service manifest fields the connector reads. -/
structure Manifest where
  versions : Option (List String)
  preview : Option UrlTemplate
  view : Option UrlTemplate
deriving Repr, DecidableEq

/-- JS String.replace with a string pattern: replace the first occurrence
only. -/
def replaceFirst (s pat rep : String) : String :=
  match s.splitOn pat with
  | [] => s
  | [x] => x
  | x :: rest => x ++ rep ++ String.intercalate pat rest

/-- Placeholder substituted into preview and view url templates. -/
def idTemplateToken : String := "\x7b\x7bid\x7d\x7d"

/-- Description-fallback rule shared by both parse paths of
ReconciliationService._parseResponse (part_001 lines 195-201 and 234-240):
a truthy (present and nonempty) description wins, else the comma-joined
type names when the type field is present (a JS array is truthy even when
empty), else the empty string. -/
def detailsOf (item : RItem) : String :=
  if truthyOptStr item.description then item.description.getD ""
  else
    match item.type with
    | some ts => String.intercalate ", " (ts.map TypeEntry.name)
    | none => ""

/-- External id of a record: the register id prefix, when configured and
truthy, is prepended with a dash. -/
def pfxId (pfx : Option String) (id : String) : String :=
  match pfx with
  | some p => if p.isEmpty then id else p ++ "-" ++ id
  | none => id

/-- Internal lookup id (part_001 lines 142 and 166): when the prefix is
truthy the key loses its first prefix-length-plus-one characters. -/
def stripPfx (pfx : Option String) (key : String) : String :=
  match pfx with
  | some p => if p.isEmpty then key else key.drop (p.length + 1)
  | none => key

/-- Link of a parsed record (part_001 lines 190-194 and 229-233): the view
template with the raw item id substituted, or the raw id itself when the
manifest advertises no view template. -/
def viewOf (manifest : Manifest) (item : RItem) : String :=
  match manifest.view with
  | some t => replaceFirst t.url idTemplateToken item.id
  | none => item.id

/-- Record built by the default parse path of _parseResponse (part_001
lines 241-249): the whole type value is kept and no score field is set. -/
def recordLegacy (manifest : Manifest) (pfx : Option String) (reg : String)
    (item : RItem) : Record :=
  { register := reg
    id := pfxId pfx item.id
    label := item.name
    type := match item.type with
            | some ts => TypeVal.list ts
            | none => TypeVal.undef
    details := detailsOf item
    score := none
    link := viewOf manifest item
    provider := "Reconciliation" }

/-- Record built by the newest-variant parse path of _parseResponse
(part_001 lines 202-211): the type field takes only the first type entry's
name via item.type[0].name, which throws a TypeError when the item carries
no type or an empty type array; the score field is carried over. -/
def recordAlpha (manifest : Manifest) (pfx : Option String) (reg : String)
    (item : RItem) : Except Unit Record :=
  match item.type with
  | some (t0 :: _) =>
      Except.ok
        { register := reg
          id := pfxId pfx item.id
          label := item.name
          type := TypeVal.name t0.name
          details := detailsOf item
          score := item.score
          link := viewOf manifest item
          provider := "Reconciliation" }
  | _ => Except.error ()

/-- First element of the newest-variant response array, carrying the result
list read at part_001 line 189. -/
structure RawBatch where
  result : List RItem
deriving Repr, DecidableEq

/-- Parsed JSON response shapes _parseResponse can receive: the newest
variant's array whose first element carries the result list, or the legacy
object keyed by q0. -/
inductive RawResponse
  | alphaShape (batches : List RawBatch)
  | legacyShape (result : List RItem)
deriving Repr, DecidableEq

/-- ReconciliationService._parseResponse (part_001 lines 181-260): dispatch
on the version string; the newest path reads the first array element's
result list and builds records that may throw on a missing type, the
default path reads the q0 result list; a response of the other shape makes
the property access throw (the array index on a plain object, the q0 field
on an array), modelled as an error. -/
def parseResponse (manifest : Manifest) (pfx : Option String) (reg : String)
    (version : String) (obj : RawResponse) : Except Unit QueryResult :=
  if version = "0.3.0-alpha" then
    match obj with
    | RawResponse.alphaShape (b0 :: _) =>
        (b0.result.mapM (recordAlpha manifest pfx reg)).map
          (fun rs => { totalItems := b0.result.length, items := rs })
    | _ => Except.error ()
  else
    match obj with
    | RawResponse.legacyShape items =>
        Except.ok { totalItems := items.length
                    items := items.map (recordLegacy manifest pfx reg) }
    | _ => Except.error ()

/-- ReconciliationService.query (part_001 lines 109-122): build the request
(which can throw on the lang assignment), run the transport, parse the
response; a transport rejection propagates. -/
def reconcQuery (manifest : Manifest) (pfx : Option String) (reg : String)
    (version : String) (procLang accLang : Option String)
    (transport : ReqInit → Except Unit RawResponse) (key : String) :
    Except Unit QueryResult :=
  match buildQueryRequest version procLang accLang key with
  | Except.error e => Except.error e
  | Except.ok qInit =>
      match transport qInit with
      | Except.error e => Except.error e
      | Except.ok raw => parseResponse manifest pfx reg version raw

/-- ReconciliationService.getRecord (part_001 lines 165-172): strip the
register prefix from the key, re-issue a query for the stripped id and
return its first item; when the sub-query produced no items the indexing
result is undefined, still a resolution, modelled as Option none. -/
def reconcGetRecord (manifest : Manifest) (pfx : Option String)
    (reg : String) (version : String) (procLang accLang : Option String)
    (transport : ReqInit → Except Unit RawResponse) (key : String) :
    Except Unit (Option Record) :=
  match reconcQuery manifest pfx reg version procLang accLang transport
      (stripPfx pfx key) with
  | Except.error e => Except.error e
  | Except.ok result => Except.ok result.items.head?

/-- Hex digit characters used by percent-encoding. -/
def hexDigit (n : Nat) : Char :=
  if n < 10 then Char.ofNat (48 + n) else Char.ofNat (55 + n)

/-- UTF-8 bytes of a code point. -/
def utf8Bytes (n : Nat) : List Nat :=
  if n < 128 then [n]
  else if n < 2048 then [192 + n / 64, 128 + n % 64]
  else if n < 65536 then
    [224 + n / 4096, 128 + (n / 64) % 64, 128 + n % 64]
  else
    [240 + n / 262144, 128 + (n / 4096) % 64, 128 + (n / 64) % 64,
      128 + n % 64]

/-- Characters encodeURIComponent leaves unescaped. -/
def isUnescapedURI (c : Char) : Bool :=
  c.isAlphanum || c = '-' || c = '_' || c = '.' || c = '!' || c = '~' ||
    c = '*' || c = '\x27' || c = '(' || c = ')'

/-- JS encodeURIComponent: percent-encode the UTF-8 bytes of every
character outside the unescaped set. -/
def encodeURIComponent (s : String) : String :=
  s.data.foldl
    (fun acc c =>
      if isUnescapedURI c then acc.push c
      else acc ++ String.join ((utf8Bytes c.toNat).map
        (fun b => "%" ++ String.singleton (hexDigit (b / 16)) ++
          String.singleton (hexDigit (b % 16))))) ""

/-- Descriptor object resolved by an info call: a JS object with an
optional id field; a bare resolve() with no value is modelled as Option
none at the use sites, an object (even the empty one) being truthy. -/
structure Desc where
  id : Option String
deriving Repr, DecidableEq

/-- Message written by ReconciliationService.info when the manifest has no
preview template (part_001 line 137). -/
def noPreviewMsg : String :=
  "no \x27preview\x27 endpoint in reconciliation service\x27s manifest"

/-- ReconciliationService.info (part_001 lines 132-157): an empty (falsy)
id resolves an empty object without touching the container; a manifest
without a preview template writes the fixed message into the container and
resolves undefined; otherwise the preview url is fetched with the
stripped, percent-encoded id substituted, its body is written into the
container and the prefixed id is resolved, a transport failure rejecting
without a write.  Returns the final container contents together with the
settled outcome. -/
def reconcInfo (manifest : Manifest) (pfx : Option String)
    (fetchText : String → Except Unit String) (id : String)
    (container : String) : String × Except Unit (Option Desc) :=
  if id.isEmpty then (container, Except.ok (some { id := none }))
  else
    match manifest.preview with
    | none => (noPreviewMsg, Except.ok none)
    | some t =>
        let rawid := stripPfx pfx id
        let url := replaceFirst t.url idTemplateToken
          (encodeURIComponent rawid)
        match fetchText url with
        | Except.ok output =>
            (output, Except.ok (some { id := some (pfxId pfx rawid) }))
        | Except.error e => (container, Except.error e)

/-- C8: for every nonempty id, ReconciliationService.info on a manifest
without a preview template writes the fixed nonempty explanatory message
into the container and resolves with the empty (undefined) descriptor
instead of rejecting. -/
theorem reconc_info_no_preview (manifest : Manifest) (pfx : Option String)
    (fetchText : String → Except Unit String) (id container : String)
    (hid : id ≠ "") (hprev : manifest.preview = none) :
    reconcInfo manifest pfx fetchText id container =
      (noPreviewMsg, Except.ok none) ∧ noPreviewMsg ≠ "" := by
  have hempty : id.isEmpty = false := by
    cases h : id.isEmpty
    · rfl
    · exact absurd ((String.isEmpty_iff id).mp h) hid
  constructor
  · simp [reconcInfo, hempty, hprev]
  · decide

/-- Transport stub that always rejects, used by concrete witnesses. -/
def failText : String → Except Unit String :=
  fun _ => Except.error ()

/-- Manifest advertising no versions and no templates, used by concrete
witnesses. -/
def emptyManifest : Manifest :=
  { versions := none, preview := none, view := none }

/-- Witness for C8 at a concrete input: info on a manifest without preview
writes the fixed message and resolves undefined. -/
theorem reconc_info_no_preview_witness :
    reconcInfo emptyManifest none failText "gnd-118540238" "old" =
      (noPreviewMsg, Except.ok none) ∧ noPreviewMsg ≠ "" :=
  reconc_info_no_preview emptyManifest none failText "gnd-118540238" "old"
    (by decide) rfl

/-- Transport stub answering every request with an empty legacy result
list. -/
def emptyLegacyTransport : ReqInit → Except Unit RawResponse :=
  fun _ => Except.ok (RawResponse.legacyShape [])

/-- C3 counterexample: on a manifest advertising no view template and a
sub-query yielding no items, getRecord resolves with undefined instead of
rejecting, refuting both failure conditions of the claim at once. -/
theorem reconc_getRecord_cex :
    reconcGetRecord emptyManifest none "places" "0.1.0" none none
        emptyLegacyTransport "k" = Except.ok none
    ∧ emptyManifest.view = none := by
  constructor
  · rfl
  · rfl

/-- C3 amended: getRecord strips the register prefix from the key and
re-issues a query for the stripped id; when that query resolves it returns
the first item of the item list when there is one, resolves with undefined
rather than rejecting when the item list is empty, never consults the view
template, and rejects exactly when the sub-query rejects. -/
theorem reconc_getRecord_amended (manifest : Manifest) (pfx : Option String)
    (reg version : String) (procLang accLang : Option String)
    (transport : ReqInit → Except Unit RawResponse) (key : String) :
    (∀ total r rest,
      reconcQuery manifest pfx reg version procLang accLang transport
          (stripPfx pfx key) =
        Except.ok { totalItems := total, items := r :: rest } →
      reconcGetRecord manifest pfx reg version procLang accLang transport
          key = Except.ok (some r))
    ∧ (∀ total,
      reconcQuery manifest pfx reg version procLang accLang transport
          (stripPfx pfx key) =
        Except.ok { totalItems := total, items := [] } →
      reconcGetRecord manifest pfx reg version procLang accLang transport
          key = Except.ok none)
    ∧ (reconcQuery manifest pfx reg version procLang accLang transport
          (stripPfx pfx key) = Except.error () →
      reconcGetRecord manifest pfx reg version procLang accLang transport
          key = Except.error ()) := by
  refine ⟨?_, ?_, ?_⟩
  · intro total r rest h
    simp [reconcGetRecord, h]
  · intro total h
    simp [reconcGetRecord, h]
  · intro h
    simp [reconcGetRecord, h]

/-- Legacy response item used by concrete witnesses. -/
def wRItem : RItem :=
  { id := "a", name := "X", description := none,
    type := some [{ name := "Person" }], score := none }

/-- Transport stub answering every request with a one-item legacy result
list. -/
def oneLegacyTransport : ReqInit → Except Unit RawResponse :=
  fun _ => Except.ok (RawResponse.legacyShape [wRItem])

/-- Transport stub whose fetch always rejects. -/
def failTransport : ReqInit → Except Unit RawResponse :=
  fun _ => Except.error ()

/-- Witness for C3 amended at concrete inputs: a prefixed key is stripped
and the sub-query's first record returned; an empty sub-query resolves
undefined; a rejecting sub-query rejects. -/
theorem reconc_getRecord_amended_witness :
    reconcGetRecord emptyManifest (some "gnd") "places" "0.1.0" none none
        oneLegacyTransport "gnd-a" =
      Except.ok (some (recordLegacy emptyManifest (some "gnd") "places"
        wRItem))
    ∧ reconcGetRecord emptyManifest none "places" "0.1.0" none none
        emptyLegacyTransport "k" = Except.ok none
    ∧ reconcGetRecord emptyManifest none "places" "0.1.0" none none
        failTransport "k" = Except.error () := by
  refine ⟨?_, ?_, ?_⟩
  · exact (reconc_getRecord_amended emptyManifest (some "gnd") "places"
      "0.1.0" none none oneLegacyTransport "gnd-a").1 1
      (recordLegacy emptyManifest (some "gnd") "places" wRItem) [] (by rfl)
  · exact (reconc_getRecord_amended emptyManifest none "places" "0.1.0"
      none none emptyLegacyTransport "k").2.1 0 (by rfl)
  · exact (reconc_getRecord_amended emptyManifest none "places" "0.1.0"
      none none failTransport "k").2.2 (by rfl)

theorem empty_string_isEmpty : ("" : String).isEmpty = true := rfl

/-- Legacy response item with a present but empty description. -/
def c9Item : RItem :=
  { id := "a", name := "X", description := some "",
    type := some [{ name := "Person" }], score := none }

/-- C9 counterexample: a legacy-shape item whose description field is
present but empty is parsed into a record whose details is the
type-derived fallback Person, not the present description value. -/
theorem reconc_details_cex :
    parseResponse emptyManifest none "places" "0.1.0"
        (RawResponse.legacyShape [c9Item]) =
      Except.ok { totalItems := 1
                  items := [recordLegacy emptyManifest none "places" c9Item] }
    ∧ c9Item.description = some ""
    ∧ (recordLegacy emptyManifest none "places" c9Item).details = "Person"
    ∧ (recordLegacy emptyManifest none "places" c9Item).details ≠ "" := by
  refine ⟨rfl, rfl, rfl, ?_⟩
  decide

/-- C9 amended: for every legacy-path response item, the details field of
the produced record equals the item's description when a nonempty (JS
truthy) description is present; otherwise, an absent or empty description
alike, it is the comma-joined list of the item's type names when a type
list is present, and the empty string when no type list is present. -/
theorem reconc_details_rule (manifest : Manifest) (pfx : Option String)
    (reg : String) (item : RItem) :
    (∀ d, item.description = some d → d ≠ "" →
      (recordLegacy manifest pfx reg item).details = d)
    ∧ ((item.description = none ∨ item.description = some "") →
        ∀ ts, item.type = some ts →
          (recordLegacy manifest pfx reg item).details =
            String.intercalate ", " (ts.map TypeEntry.name))
    ∧ ((item.description = none ∨ item.description = some "") →
        item.type = none →
        (recordLegacy manifest pfx reg item).details = "") := by
  refine ⟨?_, ?_, ?_⟩
  · intro d hd hne
    have he : d.isEmpty = false := by
      cases h : d.isEmpty
      · rfl
      · exact absurd ((String.isEmpty_iff d).mp h) hne
    simp [recordLegacy, detailsOf, truthyOptStr, hd, he]
  · intro hdesc ts hts
    rcases hdesc with h | h <;>
      simp [recordLegacy, detailsOf, truthyOptStr, h, hts,
        empty_string_isEmpty]
  · intro hdesc hts
    rcases hdesc with h | h <;>
      simp [recordLegacy, detailsOf, truthyOptStr, h, hts,
        empty_string_isEmpty]

/-- Legacy response item with a nonempty description and a type list. -/
def c9ItemDescr : RItem :=
  { id := "a", name := "X", description := some "A description",
    type := some [{ name := "Person" }], score := none }

/-- Legacy response item with two type entries and no description. -/
def c9ItemTypes : RItem :=
  { id := "a", name := "X", description := none,
    type := some [{ name := "Person" }, { name := "Place" }], score := none }

/-- Legacy response item with neither description nor type. -/
def c9ItemBare : RItem :=
  { id := "a", name := "X", description := none, type := none,
    score := none }

/-- Witness for C9 amended at concrete inputs: a nonempty description
wins, two type names are comma-joined, and a bare item yields the empty
string. -/
theorem reconc_details_rule_witness :
    (recordLegacy emptyManifest none "places" c9ItemDescr).details =
      "A description"
    ∧ (recordLegacy emptyManifest none "places" c9ItemTypes).details =
      "Person, Place"
    ∧ (recordLegacy emptyManifest none "places" c9ItemBare).details = "" := by
  refine ⟨?_, ?_, ?_⟩
  · exact (reconc_details_rule emptyManifest none "places" c9ItemDescr).1
      "A description" rfl (by decide)
  · have h := (reconc_details_rule emptyManifest none "places"
      c9ItemTypes).2.1 (Or.inl rfl)
      [{ name := "Person" }, { name := "Place" }] rfl
    rw [h]
    rfl
  · exact (reconc_details_rule emptyManifest none "places" c9ItemBare).2.2
      (Or.inl rfl) rfl

end Authority
